import Mathlib

/-!
Shallow embedding of the mageflow client-side graph subsystem:
the normalized graph store (`src/frontend/src/stores/graphStore.ts`),
the batching/caching data gateway (`src/frontend/src/api/websocket.ts`,
API-client half), the progressive loader (`useProgressiveLoader`), the
frontend sizing utility (`taskSizeUtils.ts`), and the app-side task
model classes (`src/app/src/models/*.js`).

JavaScript `Record<string, T>` objects and `Map<string, T>` are
modelled as key-ordered association lists (`List (String × T)`):
assignment replaces the value in place for an existing key and appends
for a new key, matching JS object key-order semantics.  JS numbers are
modelled as `Nat` where every operation involved is integer-valued on
the integer inputs that occur, except that `Math.ceil` of a float
division is modelled faithfully via rational division and `Nat.ceil`.
-/

/-- JS `obj[k]` / `Map.get`: value of the first (unique) binding of `k`. -/
def recordGet {α : Type} (m : List (String × α)) (k : String) : Option α :=
  (m.find? (fun p => p.1 = k)).map (fun p => p.2)

/-- JS `obj[k] = v` / `Map.set`: replace in place if present, append if new. -/
def recordSet {α : Type} (m : List (String × α)) (k : String) (v : α) : List (String × α) :=
  if m.any (fun p => p.1 = k) then
    m.map (fun p => if p.1 = k then (k, v) else p)
  else
    m ++ [(k, v)]

/-- JS `delete obj[k]` / `Map.delete`. -/
def recordDelete {α : Type} (m : List (String × α)) (k : String) : List (String × α) :=
  m.filter (fun p => p.1 ≠ k)

-- ===========================================================================
-- App-side task model (`src/app/src/models`): Task / SimpleTask /
-- ContainerTask / ChainTask / SwarmTask.  The class hierarchy is embedded as
-- a record with a `type` discriminant; the container fields (`tasks` child-id
-- list, `pageSize`) live on the record and are only consulted by the
-- container variants, exactly as the subclasses only consult their own
-- fields.
-- ===========================================================================

inductive ATaskType : Type
  | simple : ATaskType
  | chain : ATaskType
  | swarm : ATaskType
deriving DecidableEq

structure Dims where
  width : Nat
  height : Nat
deriving DecidableEq

structure ATask where
  id : String
  name : String
  type : ATaskType
  /-- explicit `width` ctor datum (JS `this.width`, `undefined` ↦ `none`) -/
  widthOpt : Option Nat
  /-- explicit `height` ctor datum (JS `this.height`, `undefined` ↦ `none`) -/
  heightOpt : Option Nat
  /-- ContainerTask: ordered child-id list (`this.tasks` / `this.children`) -/
  tasks : List String
  /-- ContainerTask: `this.pageSize` (ctor default 10) -/
  pageSize : Nat
deriving DecidableEq

/-- `Map<string, Task>` of all tasks. -/
def TaskMap : Type := List (String × ATask)

def lookupTask (all : TaskMap) (cid : String) : Option ATask :=
  recordGet all cid

-- Layout constants from ContainerTask / ChainTask / SwarmTask.
def PAGINATION_FOOTER_HEIGHT : Nat := 35
def CHILD_MARGIN_TOP : Nat := 40
def CHILD_MARGIN_LEFT : Nat := 20
def CHAIN_CHILD_SPACING : Nat := 20
def SWARM_CHILD_SPACING : Nat := 15

/-- `ContainerTask.getTotalPages`: `Math.max(1, Math.ceil(len / pageSize))`,
with the float division and `Math.ceil` modelled over ℚ. -/
def getTotalPages (t : ATask) : Nat :=
  max 1 ⌈(t.tasks.length : ℚ) / (t.pageSize : ℚ)⌉₊

/-- `ContainerTask.getTasksForPage` / `getChildrenForPage`:
`this.tasks.slice(pageIndex * pageSize, min(start + pageSize, len))`. -/
def getTasksForPage (t : ATask) (pageIndex : Nat) : List String :=
  let startIndex := pageIndex * t.pageSize
  let endIndex := min (startIndex + t.pageSize) t.tasks.length
  (t.tasks.take endIndex).drop startIndex

/-- `ContainerTask.needsPagination`: `this.tasks.length > this.pageSize`. -/
def needsPagination (t : ATask) : Bool :=
  t.tasks.length > t.pageSize

/-- `ContainerTask.hasTasks` / `hasChildren`: `this.tasks.length > 0`. -/
def hasTasks (t : ATask) : Bool :=
  t.tasks.length > 0

/-- `task instanceof ContainerTask` for the tagged embedding. -/
def isContainer (t : ATask) : Bool :=
  t.type = ATaskType.chain ∨ t.type = ATaskType.swarm

/-- `SimpleTask.calculateDimensions`: explicit ctor dimensions when both are
truthy, otherwise a label-length estimate
`max(180, min(300, labelLength * 7 + 40)) × 60` with `labelLength = 10`
for a falsy name. -/
def simpleCalculateDimensions (t : ATask) : Dims :=
  match t.widthOpt, t.heightOpt with
  | some w, some h =>
    if w ≠ 0 ∧ h ≠ 0 then ⟨w, h⟩
    else ⟨max 180 (min 300 ((if t.name.length = 0 then 10 else t.name.length) * 7 + 40)), 60⟩
  | _, _ =>
    ⟨max 180 (min 300 ((if t.name.length = 0 then 10 else t.name.length) * 7 + 40)), 60⟩

-- `ChainTask.calculateDimensions` / `SwarmTask.calculateDimensions` and the
-- child-measuring loops inside them.  The JS recursion
-- `childTask.calculateDimensions(allTasks)` can diverge on a cyclic task map,
-- so the embedding takes a `fuel` bound on nesting depth and returns `none`
-- when the bound is exhausted; every claim is evaluated on results that are
-- `some`.  The forEach loops are the structural list recursions
-- `chainMeasure` (threading `(chainWidth, chainHeight, currentX)`) and
-- `swarmMeasure` (threading `(swarmWidth, swarmHeight)`), taking the child
-- measurer `dimOf` (the recursive `calculateDimensions` call at one less
-- fuel) as an argument.

def chainMeasure (all : TaskMap) (dimOf : ATask → Option Dims) :
    List String → Nat → Nat → Nat → Option (Nat × Nat)
  | [], cw, ch, _ => some (cw, ch)
  | cid :: rest, cw, ch, cx =>
    match lookupTask all cid with
    | none => chainMeasure all dimOf rest cw ch cx
    | some child =>
      match dimOf child with
      | none => none
      | some d =>
        if isContainer child then
          chainMeasure all dimOf rest
            (max cw (cx + d.width + CHILD_MARGIN_LEFT))
            (max ch (CHILD_MARGIN_TOP + d.height + CHILD_MARGIN_LEFT))
            (cx + d.width + CHAIN_CHILD_SPACING)
        else
          chainMeasure all dimOf rest
            (max cw (cx + d.width + CHILD_MARGIN_LEFT))
            (max ch (CHILD_MARGIN_TOP + 30 + d.height + CHILD_MARGIN_LEFT))
            (cx + d.width + CHAIN_CHILD_SPACING)

def swarmMeasure (all : TaskMap) (dimOf : ATask → Option Dims) :
    List String → Nat → Nat → Option (Nat × Nat)
  | [], sw, sh => some (sw, sh)
  | cid :: rest, sw, sh =>
    match lookupTask all cid with
    | none => swarmMeasure all dimOf rest sw sh
    | some child =>
      match dimOf child with
      | none => none
      | some d =>
        swarmMeasure all dimOf rest
          (max sw (d.width + CHILD_MARGIN_LEFT * 2))
          (sh + d.height + SWARM_CHILD_SPACING)

def calculateDimensionsA : Nat → ATask → TaskMap → Option Dims
  | 0, _, _ => none
  | fuel + 1, t, all =>
    match t.type with
    | ATaskType.simple => some (simpleCalculateDimensions t)
    | ATaskType.chain =>
      if t.tasks.length = 0 then some ⟨400, 150⟩
      else
        let footer := if needsPagination t then PAGINATION_FOOTER_HEIGHT else 0
        match chainMeasure all (fun c => calculateDimensionsA fuel c all)
            (getTasksForPage t 0) (CHILD_MARGIN_LEFT * 2) 120 CHILD_MARGIN_LEFT with
        | none => none
        | some (w, h) => some ⟨w, h + footer⟩
    | ATaskType.swarm =>
      if t.tasks.length = 0 then some ⟨250, 200⟩
      else
        let footer := if needsPagination t then PAGINATION_FOOTER_HEIGHT else 0
        match swarmMeasure all (fun c => calculateDimensionsA fuel c all)
            (getTasksForPage t 0) 200 CHILD_MARGIN_TOP with
        | none => none
        | some (w, h) => some ⟨w, h + CHILD_MARGIN_LEFT + footer⟩

-- ===========================================================================
-- `ChainTask.layoutChildren` (`src/app/src/models/ChainTask.js`): only the
-- sequence-edge structure is needed by the claims.  Inside the forEach over
-- `pageChildren`, a missing child (`allTasks.get` fails) aborts that
-- iteration before any edge is pushed; otherwise, for every index
-- `i < pageChildren.length - 1` the edge `pageChildren[i] → pageChildren[i+1]`
-- is pushed.
-- ===========================================================================

def chainSeqGo (all : TaskMap) : List String → List (String × String)
  | [] => []
  | [_] => []
  | c :: next :: rest =>
    if (lookupTask all c).isSome then
      (c, next) :: chainSeqGo all (next :: rest)
    else
      chainSeqGo all (next :: rest)

/-- The `source → target` pairs of the chain-sequence edges emitted by
`ChainTask.layoutChildren(allTasks, processedContainers, pageIndex)`. -/
def chainLayoutSequenceEdges (t : ATask) (all : TaskMap) (pageIndex : Nat) :
    List (String × String) :=
  if t.tasks.length = 0 then []
  else chainSeqGo all (getTasksForPage t pageIndex)

-- ===========================================================================
-- Frontend edge model (`src/frontend/src/types/edge.ts`).
-- ===========================================================================

inductive EdgeType : Type
  | success : EdgeType
  | error : EdgeType
  | subtask : EdgeType
  | sequence : EdgeType
deriving DecidableEq

def EdgeType.toStr : EdgeType → String
  | EdgeType.success => "success"
  | EdgeType.error => "error"
  | EdgeType.subtask => "subtask"
  | EdgeType.sequence => "sequence"

structure SEdge where
  id : String
  source : String
  target : String
  type : EdgeType
deriving DecidableEq

/-- `createEdgeId(source, target, type)`: the template string
`source->target:type`. -/
def createEdgeId (source target : String) (type : EdgeType) : String :=
  source ++ "->" ++ target ++ ":" ++ type.toStr

def createSuccessEdge (source target : String) : SEdge :=
  ⟨createEdgeId source target EdgeType.success, source, target, EdgeType.success⟩

def createErrorEdge (source target : String) : SEdge :=
  ⟨createEdgeId source target EdgeType.error, source, target, EdgeType.error⟩

def createSubtaskEdge (parent child : String) : SEdge :=
  ⟨createEdgeId parent child EdgeType.subtask, parent, child, EdgeType.subtask⟩

def createSequenceEdge (from_ to_ : String) : SEdge :=
  ⟨createEdgeId from_ to_ EdgeType.sequence, from_, to_, EdgeType.sequence⟩

-- ===========================================================================
-- Sequence-edge creation in `loadSubtasks` (progressive loader, chain branch):
-- a sequence edge between each pair of consecutive ids of the fetched page,
-- plus — when `page > 0`, the store snapshot of the parent's `subtaskIds` is
-- longer than `startIdx = page * pageSize`, `prevLastIdx = startIdx - 1 ≥ 0`,
-- and the entry at `prevLastIdx` is truthy — one bridging edge from that
-- entry to the first fetched id.  The caller guarantees the fetched page is
-- non-empty (the function returns early on an empty page).
-- ===========================================================================

def consecutiveSequenceEdges : List String → List SEdge
  | [] => []
  | [_] => []
  | a :: b :: rest => createSequenceEdge a b :: consecutiveSequenceEdges (b :: rest)

def loadSubtasksSequenceEdges (responseTaskIds : List String)
    (storeSubtaskIds : List String) (page pageSize : Nat) : List SEdge :=
  let startIdx := page * pageSize
  let bridge :=
    if page > 0 ∧ storeSubtaskIds.length > startIdx then
      match startIdx, responseTaskIds with
      | prevLastIdx + 1, r0 :: _ =>
        match storeSubtaskIds.get? prevLastIdx with
        | some prev => if prev = "" then [] else [createSequenceEdge prev r0]
        | none => []
      | _, _ => []
    else []
  consecutiveSequenceEdges responseTaskIds ++ bridge

-- ===========================================================================
-- Frontend sizing utility (`taskSizeUtils.ts`).  `Task.children_ids` resolve
-- through the `tasksMap`; missing children are dropped (`.filter(Boolean)`).
-- `currentPage` is the 1-based display page (default 1); nested children are
-- measured at page 1.  As above, a `fuel` nesting bound replaces the
-- unbounded JS recursion.  `Math.max(...heights)` is modelled as a fold with
-- neutral element 0: the visible slices compared by the claims are non-empty,
-- where the two coincide.
-- ===========================================================================

inductive FTaskType : Type
  | simple : FTaskType
  | chain : FTaskType
  | swarm : FTaskType
deriving DecidableEq

structure FTask where
  id : String
  type : FTaskType
  children_ids : List String
deriving DecidableEq

def FTaskMap : Type := List (String × FTask)

def SIMPLE_TASK_WIDTH : Nat := 180
def SIMPLE_TASK_HEIGHT : Nat := 60
def CONTAINER_PADDING : Nat := 24
def CONTAINER_HEADER_HEIGHT : Nat := 40
def CONTAINER_FOOTER_HEIGHT : Nat := 36
def INNER_TASK_GAP : Nat := 12
def TASKS_PER_PAGE : Nat := 5

def childDimensionsF (dimOf : FTask → Option Dims) : List FTask → Option (List Dims)
  | [] => some []
  | c :: rest =>
    match dimOf c with
    | none => none
    | some d =>
      match childDimensionsF dimOf rest with
      | none => none
      | some ds => some (d :: ds)

def calculateTaskDimensionsF : Nat → FTask → FTaskMap → Nat → Option Dims
  | 0, _, _, _ => none
  | fuel + 1, t, tasksMap, currentPage =>
    match t.type with
    | FTaskType.simple => some ⟨SIMPLE_TASK_WIDTH, SIMPLE_TASK_HEIGHT⟩
    | _ =>
      let childTasks := t.children_ids.filterMap (recordGet tasksMap)
      if childTasks.length = 0 then
        some ⟨SIMPLE_TASK_WIDTH + CONTAINER_PADDING * 2,
              SIMPLE_TASK_HEIGHT + CONTAINER_HEADER_HEIGHT + CONTAINER_PADDING * 2⟩
      else
        let startIndex := (currentPage - 1) * TASKS_PER_PAGE
        let paginatedChildren :=
          (childTasks.take (startIndex + TASKS_PER_PAGE)).drop startIndex
        match childDimensionsF
            (fun c => calculateTaskDimensionsF fuel c tasksMap 1) paginatedChildren with
        | none => none
        | some childDimensions =>
          let contentWidth :=
            if t.type = FTaskType.chain then
              (childDimensions.map Dims.width).sum
                + (childDimensions.length - 1) * INNER_TASK_GAP
            else
              (childDimensions.map Dims.width).foldr max 0
          let contentHeight :=
            if t.type = FTaskType.chain then
              (childDimensions.map Dims.height).foldr max 0
            else
              (childDimensions.map Dims.height).sum
                + (childDimensions.length - 1) * INNER_TASK_GAP
          let needsP := childTasks.length > TASKS_PER_PAGE
          some ⟨contentWidth + CONTAINER_PADDING * 2,
                contentHeight + CONTAINER_HEADER_HEIGHT + CONTAINER_PADDING * 2
                  + (if needsP then CONTAINER_FOOTER_HEIGHT else 0)⟩

-- ===========================================================================
-- Normalized graph store (`src/frontend/src/stores/graphStore.ts`).  The
-- store state keeps the collections the claims touch: `tasks`, `edges`,
-- `positions`.  Immer drafts mutate in place; the embedding passes the state
-- explicitly.
-- ===========================================================================

structure SPagination where
  currentPage : Nat
  sPageSize : Nat
  totalCount : Nat
  /-- `Set<number>` of loaded page indices, in insertion order. -/
  loadedPages : List Nat
deriving DecidableEq

structure STask where
  id : String
  parentId : Option String
  subtaskIds : List String
  subtasksPagination : SPagination
deriving DecidableEq

structure SState where
  tasks : List (String × STask)
  edges : List (String × SEdge)
  positions : List (String × (Int × Int))
deriving DecidableEq

/-- `removeTask(taskId)`: deletes the task and its cached position, then —
exactly as the source does — reads `state.tasks[taskId]` *after* the
deletion before attempting to detach the id from the parent's
`subtaskIds`. -/
def removeTask (s : SState) (taskId : String) : SState :=
  let tasks1 := recordDelete s.tasks taskId
  let positions1 := recordDelete s.positions taskId
  match recordGet tasks1 taskId with
  | some task =>
    match task.parentId with
    | some pid =>
      match recordGet tasks1 pid with
      | some parent =>
        { s with
          tasks := recordSet tasks1 pid
            { parent with subtaskIds := parent.subtaskIds.filter (fun i => i ≠ taskId) },
          positions := positions1 }
      | none => { s with tasks := tasks1, positions := positions1 }
    | none => { s with tasks := tasks1, positions := positions1 }
  | none => { s with tasks := tasks1, positions := positions1 }

/-- `removeEdgesForTask(taskId)`: collect the ids of the edges whose source or
target is `taskId`, then delete each of them. -/
def removeEdgesForTask (s : SState) (taskId : String) : SState :=
  let edgeIds :=
    (s.edges.filter (fun p => p.2.source = taskId ∨ p.2.target = taskId)).map
      (fun p => p.1)
  { s with edges := edgeIds.foldl (fun es i => recordDelete es i) s.edges }

/-- `appendSubtaskIds(taskId, subtaskIds, page)`: push each given id that is
not in the set of *pre-existing* `subtaskIds` (the set is built once, before
the loop), then add `page` to `loadedPages`.  Missing task: silent no-op. -/
def appendSubtaskIds (s : SState) (taskId : String) (subtaskIds : List String)
    (page : Nat) : SState :=
  match recordGet s.tasks taskId with
  | none => s
  | some task =>
    let newSubtaskIds :=
      task.subtaskIds ++ subtaskIds.filter (fun i => ¬ task.subtaskIds.contains i)
    let pag := task.subtasksPagination
    let newLoadedPages :=
      if pag.loadedPages.contains page then pag.loadedPages
      else pag.loadedPages ++ [page]
    { s with
      tasks := recordSet s.tasks taskId
        { task with
          subtaskIds := newSubtaskIds,
          subtasksPagination := { pag with loadedPages := newLoadedPages } } }

/-- `setEdge(edge)`: `state.edges[edge.id] = edge`. -/
def setEdge (s : SState) (e : SEdge) : SState :=
  { s with edges := recordSet s.edges e.id e }

/-- `setEdges(edges)`: `for (const edge of edges) state.edges[edge.id] = edge`. -/
def setEdges (s : SState) (es : List SEdge) : SState :=
  es.foldl setEdge s

-- ===========================================================================
-- `ChainNode.tsx` total-page computation:
-- `Math.ceil(pagination.totalCount / pagination.pageSize)` (no lower bound).
-- ===========================================================================

def chainNodeTotalPages (totalCount pageSize : Nat) : Nat :=
  ⌈(totalCount : ℚ) / (pageSize : ℚ)⌉₊

-- ===========================================================================
-- Data gateway (`APIClient` in the api client source).  Promises are
-- modelled by explicit state passing: `deduplicatedFetch` manipulates the
-- `inflightRequests` map (promises identified by a fresh `Nat`), issuing a
-- fetch only when the key has no in-flight entry; the `.finally` cleanup that
-- runs when the shared promise settles is `promiseSettled`.
-- ===========================================================================

structure DedupState where
  inflight : List (String × Nat)
  nextPromiseId : Nat
deriving DecidableEq

structure FetchCall where
  state : DedupState
  promiseId : Nat
  issuedFetch : Bool
deriving DecidableEq

def deduplicatedFetch (s : DedupState) (key : String) : FetchCall :=
  match recordGet s.inflight key with
  | some pid => ⟨s, pid, false⟩
  | none =>
    ⟨⟨s.inflight ++ [(key, s.nextPromiseId)], s.nextPromiseId + 1⟩,
      s.nextPromiseId, true⟩

/-- The `.finally(() => this.inflightRequests.delete(key))` cleanup. -/
def promiseSettled (s : DedupState) (key : String) : DedupState :=
  ⟨recordDelete s.inflight key, s.nextPromiseId⟩

/-- `getRootTaskIds()` delegates to `deduplicatedFetch` with the fixed
logical key `roots`; no result is stored anywhere else. -/
def getRootTaskIdsCall (s : DedupState) : FetchCall :=
  deduplicatedFetch s "roots"

-- Retry configuration of the gateway.
def MAX_RETRIES : Nat := 3
def RETRY_DELAY_MS : Nat := 1000
def BATCH_SIZE : Nat := 50

/-- `fetchWithRetry`: attempts `0..retries`; a failed attempt `< retries`
waits `RETRY_DELAY_MS * 2 ^ attempt` and tries again; after the last failed
attempt the promise rejects with the last error.  `outcome n` is the result
of the underlying `fetch` on attempt `n`; the returned list records the
backoff delays actually waited. -/
def fetchWithRetryGo {α : Type} (outcome : Nat → Except String α)
    (retries attempt : Nat) : Except String α × List Nat :=
  match outcome attempt with
  | Except.ok a => (Except.ok a, [])
  | Except.error e =>
    if h : attempt < retries then
      let rest := fetchWithRetryGo outcome retries (attempt + 1)
      (rest.1, RETRY_DELAY_MS * 2 ^ attempt :: rest.2)
    else
      (Except.error e, [])
termination_by retries - attempt

def fetchWithRetry {α : Type} (outcome : Nat → Except String α)
    (retries : Nat := MAX_RETRIES) : Except String α × List Nat :=
  fetchWithRetryGo outcome retries 0

/-- The `for (i = 0; i < len; i += BATCH_SIZE)` chunking of `getTasksBatch`:
`slice(i, i + n)` per round.  The structural fuel is the list length, which
bounds the number of rounds for every chunk size `n ≥ 1` (the size is the
constant 50; the JS loop would not terminate on 0). -/
def chunksOfGo {α : Type} (n : Nat) : Nat → List α → List (List α)
  | 0, _ => []
  | _, [] => []
  | fuel + 1, x :: xs => ((x :: xs).take n) :: chunksOfGo n fuel ((x :: xs).drop n)

def chunksOf {α : Type} (n : Nat) (l : List α) : List (List α) :=
  chunksOfGo n l.length l

/-- Awaiting `fetchTasksBatch` for each chunk in order, collecting results;
a rejection propagates immediately out of the loop. -/
def fetchAllChunks {τ : Type} (fetchChunk : List String → Except String (List τ)) :
    List (List String) → Except String (List τ)
  | [] => Except.ok []
  | c :: cs =>
    match fetchChunk c with
    | Except.error e => Except.error e
    | Except.ok ts =>
      match fetchAllChunks fetchChunk cs with
      | Except.error e => Except.error e
      | Except.ok rest => Except.ok (ts ++ rest)

/-- `getTasksBatch(taskIds)` over an abstract task record type `τ` with id
projection `idOf` (the server record shape is opaque to the cache logic).
Splits cache hits from misses, fetches the misses in `BATCH_SIZE` chunks, and
only after every chunk succeeded writes the fetched tasks into the cache.
The TTL timestamps of cache entries are not modelled (no notion of time);
a cache entry is a hit iff present. -/
def getTasksBatchM {τ : Type} (idOf : τ → String) (cache : List (String × τ))
    (taskIds : List String) (fetchChunk : List String → Except String (List τ)) :
    Except String (List τ) × List (String × τ) :=
  if taskIds.length = 0 then (Except.ok [], cache)
  else
    let cached := taskIds.filterMap (fun i => recordGet cache i)
    let uncachedIds := taskIds.filter (fun i => (recordGet cache i).isNone)
    if uncachedIds.length = 0 then (Except.ok cached, cache)
    else
      match fetchAllChunks fetchChunk (chunksOf BATCH_SIZE uncachedIds) with
      | Except.error e => (Except.error e, cache)
      | Except.ok fetched =>
        (Except.ok (cached ++ fetched),
         fetched.foldl (fun c t => recordSet c (idOf t) t) cache)

/-- `BatchQueue.executeBatch`: given the ids taken from the queue and the
settled result of `fetcher(batch)`, the outcome delivered to each id's
pending callbacks.  On success a `Map` keyed by `t.id` is built (later
duplicates win, hence the reversed `find?`); an id with no task in the
response is rejected with `Task {id} not found`; on failure every id is
rejected with the fetch error. -/
def executeBatchM {τ : Type} (idOf : τ → String) (batch : List String)
    (fetchResult : Except String (List τ)) : List (String × Except String τ) :=
  match fetchResult with
  | Except.error e => batch.map (fun i => (i, Except.error e))
  | Except.ok tasks =>
    batch.map (fun i =>
      match tasks.reverse.find? (fun t => idOf t = i) with
      | some t => (i, Except.ok t)
      | none => (i, Except.error s!"Task {i} not found"))

/-- `getTask(taskId)`: serve from cache when present; otherwise await the
batch-queue outcome for this id, and only on success write it into the cache
(under the requested id, as the source does). -/
def getTaskM {τ : Type} (cache : List (String × τ)) (taskId : String)
    (batchOutcome : Except String τ) : Except String τ × List (String × τ) :=
  match recordGet cache taskId with
  | some t => (Except.ok t, cache)
  | none =>
    match batchOutcome with
    | Except.ok t => (Except.ok t, recordSet cache taskId t)
    | Except.error e => (Except.error e, cache)

-- ===========================================================================
-- Phase-4 recursive tree load (`loadTaskTree` in the progressive loader) and
-- the app-generation automatic depth-bounded load (`autoLoadToDepth` in
-- `useTaskDataLazy.js`).  Each is modelled as the list of load operations it
-- performs, with every operation tagged by the `depth` / `currentDepth`
-- value in force when it was issued.  The store contents are abstracted by a
-- static snapshot map (the claims are about recursion structure, not about
-- the data written back).
-- ===========================================================================

def MAX_CONCURRENT_LOADS : Nat := 5
def MAX_DEPTH : Nat := 10

structure LTask where
  type : FTaskType
  subtaskIds : List String
deriving DecidableEq

/-- One operation of `loadTaskTree`: `loadCallbacks(taskId)` when
`isSubtasks = false`, `loadSubtasks(taskId, 0)` when `isSubtasks = true`;
`depth` is the `depth` argument of the call that issued it. -/
structure TreeLoadOp where
  isSubtasks : Bool
  taskId : String
  depth : Int
deriving DecidableEq

/-- `loadTaskTree(taskId, depth)`: returns immediately when `depth <= 0`;
otherwise loads callbacks, and for a container task loads page 0 of its
subtasks and, when `depth > 1`, recurses with `depth - 1` into the first
`MAX_CONCURRENT_LOADS` subtask ids. -/
def loadTaskTreeOps (tasks : List (String × LTask)) (taskId : String)
    (depth : Int) : List TreeLoadOp :=
  if depth ≤ 0 then []
  else
    match recordGet tasks taskId with
    | none => [TreeLoadOp.mk false taskId depth]
    | some t =>
      if t.type = FTaskType.swarm ∨ t.type = FTaskType.chain then
        TreeLoadOp.mk false taskId depth :: TreeLoadOp.mk true taskId depth ::
          (if 1 < depth then
            (t.subtaskIds.take MAX_CONCURRENT_LOADS).flatMap
              (fun sid => loadTaskTreeOps tasks sid (depth - 1))
          else [])
      else [TreeLoadOp.mk false taskId depth]
termination_by depth.toNat
decreasing_by
  simp_wf
  omega

structure AutoTask where
  totalChildren : Nat
  childrenLoaded : Bool
  hasCallbacksToLoad : Bool
deriving DecidableEq

/-- One operation of `autoLoadToDepth`: `fetchChildrenInternal(taskId, ...)`
when `isCallbacks = false`, `fetchCallbacksInternal(taskId)` when
`isCallbacks = true`; `depth` is the `currentDepth` of the issuing call. -/
structure AutoLoadOp where
  isCallbacks : Bool
  taskId : String
  depth : Nat
deriving DecidableEq

/-- `autoLoadToDepth(taskId, currentDepth, tasksSnapshot)`: returns
immediately when `currentDepth >= MAX_DEPTH`; otherwise fetches unloaded
children and pending callbacks of the task, then recurses with
`currentDepth + 1` into each id discovered by those fetches.  The fetch
responses are abstracted by `childrenOf` / `callbacksOf`
(`data.newChildIds` and `data.allCallbackIds`). -/
def autoLoadOps (tasks : List (String × AutoTask))
    (childrenOf callbacksOf : String → List String) (taskId : String)
    (currentDepth : Nat) : List AutoLoadOp :=
  if MAX_DEPTH ≤ currentDepth then []
  else
    match recordGet tasks taskId with
    | none => []
    | some t =>
      (if t.totalChildren > 0 ∧ ¬ t.childrenLoaded = true then
        [AutoLoadOp.mk false taskId currentDepth]
      else []) ++
      (if t.hasCallbacksToLoad = true then
        [AutoLoadOp.mk true taskId currentDepth]
      else []) ++
      ((if t.totalChildren > 0 ∧ ¬ t.childrenLoaded = true then childrenOf taskId
        else []) ++
        (if t.hasCallbacksToLoad = true then callbacksOf taskId else [])).flatMap
        (fun cid => autoLoadOps tasks childrenOf callbacksOf cid (currentDepth + 1))
termination_by MAX_DEPTH - currentDepth

-- ===========================================================================
-- Concrete fixtures used by scenario theorems, counterexamples and witnesses.
-- ===========================================================================

/-- A leaf task of the app-side model (no explicit dimensions). -/
def simpleA (i : String) : ATask :=
  ⟨i, i, ATaskType.simple, none, none, [], 10⟩

/-- The 15 sequential children of the pagination scenario. -/
def seqIds : List String :=
  ["sequential1", "sequential2", "sequential3", "sequential4", "sequential5",
   "sequential6", "sequential7", "sequential8", "sequential9", "sequential10",
   "sequential11", "sequential12", "sequential13", "sequential14", "sequential15"]

/-- A Chain with 15 children and `pageSize = 4`. -/
def chain15 : ATask :=
  ⟨"mixedChain", "mixedChain", ATaskType.chain, none, none, seqIds, 4⟩

def all15 : TaskMap :=
  seqIds.map (fun i => (i, simpleA i))

/-- A leaf task of the frontend sizing model. -/
def fSimple (i : String) : FTask :=
  ⟨i, FTaskType.simple, []⟩

def fChildIds : List String := ["c1", "c2", "c3", "c4", "c5", "c6"]

/-- A frontend chain container with 6 leaf children (`TASKS_PER_PAGE = 5`,
so pages 1 and 2 show 5 and 1 children respectively). -/
def fChain6 : FTask :=
  ⟨"chain6", FTaskType.chain, fChildIds⟩

def fMap6 : FTaskMap :=
  fChildIds.map (fun i => (i, fSimple i))

def pagEmpty : SPagination := ⟨0, 10, 0, []⟩

/-- Parent task `p` with one subtask `t1`. -/
def exParent : STask := ⟨"p", none, ["t1"], pagEmpty⟩

/-- Subtask `t1` of `p`. -/
def exChild : STask := ⟨"t1", some "p", [], pagEmpty⟩

def exEdge : SEdge := createSubtaskEdge "p" "t1"

/-- Store holding `p`, `t1`, the subtask edge `p → t1` and a cached position
for `t1`. -/
def exState : SState :=
  ⟨[("p", exParent), ("t1", exChild)], [(exEdge.id, exEdge)], [("t1", (0, 0))]⟩

/-- Store holding a single task `t` with no subtasks yet. -/
def exAppendState : SState :=
  ⟨[("t", ⟨"t", none, [], pagEmpty⟩)], [], []⟩

-- ===========================================================================
-- Helper lemmas
-- ===========================================================================

theorem findReplace_of_any {α : Type} (k : String) (v : α) :
    ∀ m : List (String × α), m.any (fun p => p.1 = k) = true →
      (m.map (fun p => if p.1 = k then (k, v) else p)).find? (fun p => p.1 = k) =
        some (k, v)
  | [], h => by simp at h
  | p :: rest, h => by
    by_cases hp : p.1 = k
    · simp [hp]
    · have hr : rest.any (fun q => q.1 = k) = true := by
        simp only [List.any_cons, Bool.or_eq_true, decide_eq_true_eq] at h
        rcases h with h | h
        · exact absurd h hp
        · simpa using h
      simp only [List.map_cons, if_neg hp]
      rw [List.find?_cons_of_neg _ (by simpa using hp)]
      exact findReplace_of_any k v rest hr

theorem find?_append_of_none {α : Type} (p : α → Bool) :
    ∀ l1 l2 : List α, l1.find? p = none → (l1 ++ l2).find? p = l2.find? p
  | [], _, _ => rfl
  | a :: l1, l2, h => by
    by_cases ha : p a
    · rw [List.find?_cons_of_pos _ ha] at h
      exact absurd h (by simp)
    · rw [List.cons_append, List.find?_cons_of_neg _ ha]
      rw [List.find?_cons_of_neg _ ha] at h
      exact find?_append_of_none p l1 l2 h

theorem recordGet_eq_none_of_not_any {α : Type} (m : List (String × α)) (k : String)
    (h : m.any (fun p => p.1 = k) = false) : m.find? (fun p => p.1 = k) = none := by
  rw [List.find?_eq_none]
  intro x hx hpx
  have : m.any (fun p => p.1 = k) = true := List.any_eq_true.mpr ⟨x, hx, hpx⟩
  rw [this] at h
  exact Bool.noConfusion h

theorem recordGet_recordSet_self {α : Type} (m : List (String × α)) (k : String) (v : α) :
    recordGet (recordSet m k v) k = some v := by
  unfold recordGet recordSet
  by_cases h : m.any (fun p => p.1 = k)
  · rw [if_pos h, findReplace_of_any k v m h]
    rfl
  · rw [if_neg h,
      find?_append_of_none _ m _ (recordGet_eq_none_of_not_any m k (Bool.of_not_eq_true h))]
    simp

theorem recordSet_idem {α : Type} (m : List (String × α)) (k : String) (v : α) :
    recordSet (recordSet m k v) k v = recordSet m k v := by
  unfold recordSet
  by_cases h : m.any (fun p => p.1 = k)
  · rw [if_pos h]
    have hany : (m.map (fun p => if p.1 = k then (k, v) else p)).any
        (fun p => p.1 = k) = true := by
      rcases List.any_eq_true.mp h with ⟨x, hx, hpx⟩
      refine List.any_eq_true.mpr ⟨(k, v), List.mem_map.mpr ⟨x, hx, ?_⟩, by simp⟩
      simp [of_decide_eq_true hpx]
    rw [if_pos hany, List.map_map]
    refine List.map_congr_left ?_
    intro p _
    by_cases hp : p.1 = k
    · simp [hp]
    · simp [hp]
  · rw [if_neg h]
    have hany : (m ++ [(k, v)]).any (fun p => p.1 = k) = true := by
      refine List.any_eq_true.mpr ⟨(k, v), by simp, by simp⟩
    rw [if_pos hany, List.map_append]
    have hm : m.map (fun p => if p.1 = k then (k, v) else p) = m := by
      have hall : ∀ p ∈ m, (if p.1 = k then (k, v) else p) = p := by
        intro p hp
        have hnk : ¬ p.1 = k :=
          fun hpk => h (List.any_eq_true.mpr ⟨p, hp, by simpa using hpk⟩)
        simp [hnk]
      calc m.map (fun p => if p.1 = k then (k, v) else p)
          = m.map (fun p => p) := List.map_congr_left hall
        _ = m := by simp
    rw [hm]
    simp

theorem keys_recordSet {α : Type} (m : List (String × α)) (k : String) (v : α) :
    (recordSet m k v).map Prod.fst =
      if m.any (fun p => p.1 = k) then m.map Prod.fst else m.map Prod.fst ++ [k] := by
  unfold recordSet
  by_cases h : m.any (fun p => p.1 = k)
  · rw [if_pos h, if_pos h, List.map_map]
    refine List.map_congr_left ?_
    intro p _
    by_cases hp : p.1 = k
    · simp [hp]
    · simp [hp]
  · rw [if_neg h, if_neg h, List.map_append]
    rfl

theorem natCeil_div_eq_natDiv (c p : Nat) (hp : 0 < p) :
    ⌈(c : ℚ) / (p : ℚ)⌉₊ = (c + p - 1) / p := by
  rcases Nat.eq_zero_or_pos c with hc | hc
  · subst hc
    have h1 : (p - 1) / p = 0 := Nat.div_eq_of_lt (by omega)
    simp [h1]
  · have hd := Nat.div_add_mod (c + p - 1) p
    have hrlt : (c + p - 1) % p < p := Nat.mod_lt _ hp
    have key1 : c ≤ ((c + p - 1) / p) * p := by
      rw [Nat.mul_comm]
      set r := (c + p - 1) % p with hr
      set k := p * ((c + p - 1) / p) with hk
      omega
    have key2 : ((c + p - 1) / p - 1) * p < c := by
      rw [Nat.sub_one_mul, Nat.mul_comm]
      set r := (c + p - 1) % p with hr
      set k := p * ((c + p - 1) / p) with hk
      omega
    have hn0 : (c + p - 1) / p ≠ 0 := by
      intro h
      rw [h] at key1
      omega
    rw [Nat.ceil_eq_iff hn0]
    have hp0 : (0 : ℚ) < p := by exact_mod_cast hp
    constructor
    · rw [lt_div_iff₀ hp0]
      exact_mod_cast key2
    · rw [div_le_iff₀ hp0]
      exact_mod_cast key1

-- ===========================================================================
-- C5 — pagination totals
-- ===========================================================================

/-- C5 (counterexample): the frontend `ChainNode` totals computation
`Math.ceil(totalCount / pageSize)` has no `max(1, ...)` floor: for 0 children
and page size 10 it computes 0 pages, not the 1 page the claim requires. -/
theorem C5_counterexample :
    chainNodeTotalPages 0 10 = 0 ∧ chainNodeTotalPages 0 10 ≠ max 1 ((0 + 10 - 1) / 10) := by
  have h : chainNodeTotalPages 0 10 = 0 := by
    unfold chainNodeTotalPages
    rw [natCeil_div_eq_natDiv 0 10 (by decide)]
  exact ⟨h, by rw [h]; decide⟩

/-- C5 (amended): the app-side `ContainerTask.getTotalPages` equals
`max(1, ceil(c / p))` for page size `p > 0` — in particular 25 children with
page size 8 give 4 pages and 0 children with page size 10 give 1 page — while
the frontend `ChainNode` computes `ceil(c / p)` with no lower bound, which
agrees for `c > 0` but yields 0 pages for 0 children. -/
theorem C5_totalPages :
    (∀ t : ATask, 0 < t.pageSize →
        getTotalPages t = max 1 ((t.tasks.length + t.pageSize - 1) / t.pageSize))
  ∧ getTotalPages ⟨"s", "s", ATaskType.swarm, none, none, List.replicate 25 "c", 8⟩ = 4
  ∧ getTotalPages ⟨"c", "c", ATaskType.chain, none, none, [], 10⟩ = 1
  ∧ (∀ c p : Nat, 0 < p → 0 < c →
        chainNodeTotalPages c p = max 1 ((c + p - 1) / p))
  ∧ (∀ p : Nat, 0 < p → chainNodeTotalPages 0 p = 0) := by
  have hmain : ∀ t : ATask, 0 < t.pageSize →
      getTotalPages t = max 1 ((t.tasks.length + t.pageSize - 1) / t.pageSize) := by
    intro t hp
    unfold getTotalPages
    rw [natCeil_div_eq_natDiv _ _ hp]
  refine ⟨hmain, ?_, ?_, ?_, ?_⟩
  · rw [hmain _ (by decide)]
    decide
  · rw [hmain _ (by decide)]
    decide
  · intro c p hp hc
    unfold chainNodeTotalPages
    rw [natCeil_div_eq_natDiv _ _ hp]
    have h1 : 1 ≤ (c + p - 1) / p := (Nat.one_le_div_iff hp).mpr (by omega)
    omega
  · intro p hp
    unfold chainNodeTotalPages
    rw [natCeil_div_eq_natDiv _ _ hp]
    rw [Nat.div_eq_of_lt (by omega)]

/-- C5 (witness): the amended theorem applied to the 25-children/page-size-8
container and to the frontend formula at (25, 8). -/
theorem C5_totalPages_witness :
    getTotalPages ⟨"s", "s", ATaskType.swarm, none, none, List.replicate 25 "c", 8⟩ =
      max 1 ((25 + 8 - 1) / 8)
  ∧ chainNodeTotalPages 25 8 = max 1 ((25 + 8 - 1) / 8) :=
  ⟨C5_totalPages.1 ⟨"s", "s", ATaskType.swarm, none, none, List.replicate 25 "c", 8⟩
      (by decide),
   C5_totalPages.2.2.2.1 25 8 (by decide) (by decide)⟩

-- ===========================================================================
-- C4 — idempotent edge insertion
-- ===========================================================================

/-- C4: `createEdgeId` is a pure function of `(source, target, type)` — the
four edge constructors all key their edge by it — and `setEdge`/`setEdges`
upsert by that id, so inserting the edge of the same relationship twice
yields the same store as inserting it once, and (for a store whose edge keys
are distinct, as JS object keys are) exactly one edge with that id remains. -/
theorem C4_edge_idempotent :
    (∀ (src tgt : String),
        (createSuccessEdge src tgt).id = createEdgeId src tgt EdgeType.success ∧
        (createErrorEdge src tgt).id = createEdgeId src tgt EdgeType.error ∧
        (createSubtaskEdge src tgt).id = createEdgeId src tgt EdgeType.subtask ∧
        (createSequenceEdge src tgt).id = createEdgeId src tgt EdgeType.sequence)
  ∧ (∀ (st : SState) (e : SEdge), setEdge (setEdge st e) e = setEdge st e)
  ∧ (∀ (st : SState) (e : SEdge), setEdges st [e, e] = setEdge st e)
  ∧ (∀ (st : SState) (e : SEdge), (st.edges.map Prod.fst).Nodup →
        ((setEdge st e).edges.map Prod.fst).count e.id = 1) := by
  have hidem : ∀ (st : SState) (e : SEdge), setEdge (setEdge st e) e = setEdge st e := by
    intro st e
    unfold setEdge
    simp only
    rw [recordSet_idem]
  refine ⟨fun _ _ => ⟨rfl, rfl, rfl, rfl⟩, hidem, ?_, ?_⟩
  · intro st e
    show setEdge (setEdge st e) e = setEdge st e
    exact hidem st e
  · intro st e hnd
    have hkeys := keys_recordSet st.edges e.id e
    unfold setEdge
    simp only
    by_cases h : st.edges.any (fun p => p.1 = e.id)
    · rw [hkeys, if_pos h]
      rcases List.any_eq_true.mp h with ⟨x, hx, hpx⟩
      have hmem : e.id ∈ st.edges.map Prod.fst :=
        List.mem_map.mpr ⟨x, hx, of_decide_eq_true hpx⟩
      exact List.count_eq_one_of_mem hnd hmem
    · rw [hkeys, if_neg h, List.count_append]
      have hnotmem : e.id ∉ st.edges.map Prod.fst := by
        intro hmem
        rcases List.mem_map.mp hmem with ⟨x, hx, hxk⟩
        exact h (List.any_eq_true.mpr ⟨x, hx, by simpa using hxk⟩)
      rw [List.count_eq_zero_of_not_mem hnotmem]
      simp

/-- C4 (witness): inserting the subtask edge `p → t1` twice into the example
store leaves the store of a single insertion, with exactly one edge keyed by
its id. -/
theorem C4_edge_idempotent_witness :
    setEdge (setEdge exState exEdge) exEdge = setEdge exState exEdge
  ∧ ((setEdge exState exEdge).edges.map Prod.fst).count exEdge.id = 1 :=
  ⟨C4_edge_idempotent.2.1 exState exEdge,
   C4_edge_idempotent.2.2.2 exState exEdge (by decide)⟩

-- ===========================================================================
-- C2 — removeTask cascade
-- ===========================================================================

/-- C2 (code bug, evaluated at the failing input): starting from the store
holding parent `p` with `subtaskIds = [t1]`, child `t1` with
`parentId = p`, the subtask edge `p → t1`, and a cached position for `t1`,
running `removeEdgesForTask t1` and then `removeTask t1` removes the task,
its position and its edges — but `t1` is still in the parent's `subtaskIds`:
`removeTask` deletes `state.tasks[taskId]` before reading it back, so the
parent-detach branch its own comment promises never runs. -/
theorem C2_removeTask_failing_input :
    recordGet (removeTask (removeEdgesForTask exState "t1") "t1").tasks "t1" = none
  ∧ recordGet (removeTask (removeEdgesForTask exState "t1") "t1").positions "t1" = none
  ∧ (removeTask (removeEdgesForTask exState "t1") "t1").edges = []
  ∧ recordGet (removeTask (removeEdgesForTask exState "t1") "t1").tasks "p" =
      some exParent
  ∧ "t1" ∈ exParent.subtaskIds := by
  decide

-- ===========================================================================
-- C3 — appendSubtaskIds growth
-- ===========================================================================

/-- C3 (counterexample): `appendSubtaskIds` deduplicates only against the
*pre-existing* `subtaskIds`; a fresh id repeated inside one call is appended
once per occurrence.  Appending `[a, a]` to a task with no subtasks yields
`[a, a]` — a duplicate is introduced, contradicting the claim. -/
theorem C3_counterexample :
    Option.map (fun t => t.subtaskIds)
        (recordGet (appendSubtaskIds exAppendState "t" ["a", "a"] 0).tasks "t") =
      some ["a", "a"]
  ∧ ¬ (["a", "a"] : List String).Nodup := by
  decide

/-- C3 (amended): for a task present in the store,
`appendSubtaskIds(taskId, ids, page)` replaces its `subtaskIds` by the old
sequence followed by those given ids not present in the *old* sequence (kept
in their given order; an id occurring twice in `ids` and absent from the old
sequence is appended twice), and its `loadedPages` by a set equal to the old
set union `{page}`; the old `subtaskIds` is a prefix of the new one and the
old `loadedPages` a subset of the new one, so both only ever grow. -/
theorem C3_appendSubtaskIds :
    ∀ (s : SState) (taskId : String) (ids : List String) (page : Nat) (task : STask),
      recordGet s.tasks taskId = some task →
      recordGet (appendSubtaskIds s taskId ids page).tasks taskId =
        some { task with
               subtaskIds :=
                 task.subtaskIds ++ ids.filter (fun i => ¬ task.subtaskIds.contains i),
               subtasksPagination :=
                 { task.subtasksPagination with
                   loadedPages :=
                     if task.subtasksPagination.loadedPages.contains page then
                       task.subtasksPagination.loadedPages
                     else task.subtasksPagination.loadedPages ++ [page] } }
      ∧ (∀ p : Nat,
          (p ∈ (if task.subtasksPagination.loadedPages.contains page then
                  task.subtasksPagination.loadedPages
                else task.subtasksPagination.loadedPages ++ [page])) ↔
            p ∈ task.subtasksPagination.loadedPages ∨ p = page)
      ∧ task.subtaskIds <+:
          task.subtaskIds ++ ids.filter (fun i => ¬ task.subtaskIds.contains i)
      ∧ task.subtasksPagination.loadedPages ⊆
          (if task.subtasksPagination.loadedPages.contains page then
            task.subtasksPagination.loadedPages
          else task.subtasksPagination.loadedPages ++ [page]) := by
  intro s taskId ids page task h
  refine ⟨?_, ?_, List.prefix_append _ _, ?_⟩
  · unfold appendSubtaskIds
    rw [h]
    simp only
    exact recordGet_recordSet_self _ _ _
  · intro p
    by_cases hc : task.subtasksPagination.loadedPages.contains page
    · rw [if_pos hc]
      constructor
      · exact fun hp => Or.inl hp
      · rintro (hp | rfl)
        · exact hp
        · exact List.mem_of_elem_eq_true hc
    · rw [if_neg hc]
      simp [List.mem_append, or_comm]
  · by_cases hc : task.subtasksPagination.loadedPages.contains page
    · rw [if_pos hc]
      exact fun x hx => hx
    · rw [if_neg hc]
      exact List.subset_append_left _ _

/-- C3 (witness): the amended theorem applied to the single-task example
store, appending `[a, b]` as page 2. -/
theorem C3_appendSubtaskIds_witness :
    recordGet (appendSubtaskIds exAppendState "t" ["a", "b"] 2).tasks "t" =
      some { STask.mk "t" none [] pagEmpty with
             subtaskIds :=
               ([] : List String) ++
                 ["a", "b"].filter (fun i => ¬ ([] : List String).contains i),
             subtasksPagination :=
               { pagEmpty with
                 loadedPages :=
                   if pagEmpty.loadedPages.contains 2 then pagEmpty.loadedPages
                   else pagEmpty.loadedPages ++ [2] } }
  ∧ (∀ p : Nat,
      (p ∈ (if pagEmpty.loadedPages.contains 2 then pagEmpty.loadedPages
            else pagEmpty.loadedPages ++ [2])) ↔
        p ∈ pagEmpty.loadedPages ∨ p = 2)
  ∧ ([] : List String) <+:
      ([] : List String) ++ ["a", "b"].filter (fun i => ¬ ([] : List String).contains i)
  ∧ pagEmpty.loadedPages ⊆
      (if pagEmpty.loadedPages.contains 2 then pagEmpty.loadedPages
       else pagEmpty.loadedPages ++ [2]) :=
  C3_appendSubtaskIds exAppendState "t" ["a", "b"] 2 ⟨"t", none, [], pagEmpty⟩ rfl

-- ===========================================================================
-- C7 — getRootTaskIds deduplication
-- ===========================================================================

/-- C7 (counterexample): the `roots` result is *not* cached after the
in-flight promise resolves.  Starting from an empty gateway, the first
`getRootTaskIds()` issues a fetch; once its promise settles the `.finally`
cleanup removes the `roots` entry, and a second `getRootTaskIds()` issues a
*new* network fetch — contradicting "cached indefinitely until
invalidated". -/
theorem C7_counterexample :
    (getRootTaskIdsCall ⟨[], 0⟩).issuedFetch = true
  ∧ (getRootTaskIdsCall
      (promiseSettled (getRootTaskIdsCall ⟨[], 0⟩).state "roots")).issuedFetch = true := by
  decide

/-- C7 (amended): `getRootTaskIds()` deduplicates per the logical key
`roots` only *while a request is in flight*: a caller that finds an
in-flight entry receives that same promise and issues no fetch (so two
concurrent callers share one promise and one network fetch); a caller that
finds none issues a fetch and registers its promise; when the promise
settles, the entry is removed, so a later call fetches anew. -/
theorem C7_dedup_inflight_only :
    (∀ (s : DedupState) (pid : Nat),
        recordGet s.inflight "roots" = some pid →
        getRootTaskIdsCall s = ⟨s, pid, false⟩)
  ∧ (∀ s : DedupState,
        recordGet s.inflight "roots" = none →
        (getRootTaskIdsCall s).issuedFetch = true
        ∧ recordGet (getRootTaskIdsCall s).state.inflight "roots" =
            some (getRootTaskIdsCall s).promiseId
        ∧ getRootTaskIdsCall (getRootTaskIdsCall s).state =
            ⟨(getRootTaskIdsCall s).state, (getRootTaskIdsCall s).promiseId, false⟩)
  ∧ (∀ s : DedupState,
        recordGet (promiseSettled s "roots").inflight "roots" = none) := by
  refine ⟨?_, ?_, ?_⟩
  · intro s pid h
    unfold getRootTaskIdsCall deduplicatedFetch
    rw [h]
  · intro s h
    have hstep : getRootTaskIdsCall s =
        ⟨⟨s.inflight ++ [("roots", s.nextPromiseId)], s.nextPromiseId + 1⟩,
          s.nextPromiseId, true⟩ := by
      unfold getRootTaskIdsCall deduplicatedFetch
      rw [h]
    have hget : recordGet (s.inflight ++ [("roots", s.nextPromiseId)]) "roots" =
        some s.nextPromiseId := by
      unfold recordGet at h ⊢
      rw [find?_append_of_none _ _ _ (by
        cases hfind : s.inflight.find? (fun p => p.1 = "roots") with
        | none => rfl
        | some x => rw [hfind] at h; exact Option.noConfusion h)]
      simp
    refine ⟨by rw [hstep], by rw [hstep]; exact hget, ?_⟩
    rw [hstep]
    show (deduplicatedFetch _ "roots") = _
    unfold deduplicatedFetch
    simp only
    rw [hget]
  · intro s
    unfold promiseSettled recordGet recordDelete
    simp only
    have hnone : (List.filter (fun p => decide (p.1 ≠ "roots")) s.inflight).find?
        (fun p => decide (p.1 = "roots")) = none := by
      rw [List.find?_eq_none]
      intro x hx
      have hne := (List.mem_filter.mp hx).2
      simp only [ne_eq, decide_not] at hne
      simpa using hne
    rw [hnone]
    rfl

/-- C7 (witness): the amended theorem applied to the empty gateway state and
to the state right after the first call. -/
theorem C7_dedup_inflight_only_witness :
    ((getRootTaskIdsCall (⟨[], 0⟩ : DedupState)).issuedFetch = true
      ∧ recordGet (getRootTaskIdsCall (⟨[], 0⟩ : DedupState)).state.inflight "roots" =
          some (getRootTaskIdsCall (⟨[], 0⟩ : DedupState)).promiseId
      ∧ getRootTaskIdsCall (getRootTaskIdsCall (⟨[], 0⟩ : DedupState)).state =
          ⟨(getRootTaskIdsCall (⟨[], 0⟩ : DedupState)).state,
            (getRootTaskIdsCall (⟨[], 0⟩ : DedupState)).promiseId, false⟩)
  ∧ getRootTaskIdsCall (⟨[("roots", 7)], 8⟩ : DedupState) = ⟨⟨[("roots", 7)], 8⟩, 7, false⟩ :=
  ⟨C7_dedup_inflight_only.2.1 ⟨[], 0⟩ rfl,
   C7_dedup_inflight_only.1 ⟨[("roots", 7)], 8⟩ 7 rfl⟩

-- ===========================================================================
-- C8 — retry exhaustion and cache preservation
-- ===========================================================================

theorem fetchWithRetryGo_all_fail {α : Type} (outcome : Nat → Except String α)
    (f : Nat → String) (retries : Nat)
    (hfail : ∀ n, n ≤ retries → outcome n = Except.error (f n)) :
    ∀ d attempt : Nat, retries - attempt = d → attempt ≤ retries →
      fetchWithRetryGo outcome retries attempt =
        (Except.error (f retries),
          (List.range d).map (fun i => RETRY_DELAY_MS * 2 ^ (attempt + i))) := by
  intro d
  induction d with
  | zero =>
    intro attempt hd hle
    have heq : attempt = retries := by omega
    subst heq
    rw [fetchWithRetryGo, hfail attempt le_rfl]
    simp
  | succ d ih =>
    intro attempt hd hle
    have hlt : attempt < retries := by omega
    rw [fetchWithRetryGo, hfail attempt (Nat.le_of_lt hlt)]
    simp only [dif_pos hlt]
    rw [ih (attempt + 1) (by omega) (by omega)]
    refine Prod.ext rfl ?_
    simp only [List.range_succ_eq_map, List.map_cons, List.map_map]
    refine congrArg₂ _ (by rw [Nat.add_zero]) ?_
    refine List.map_congr_left ?_
    intro i _
    show RETRY_DELAY_MS * 2 ^ (attempt + 1 + i) = RETRY_DELAY_MS * 2 ^ (attempt + (i + 1))
    rw [show attempt + 1 + i = attempt + (i + 1) by omega]

/-- C8: when every underlying fetch attempt fails, `fetchWithRetry` performs
the initial attempt plus `MAX_RETRIES = 3` retries, waits
`RETRY_DELAY_MS * 2 ^ attempt` between attempts (delays 1000, 2000, 4000 ms),
and rejects with the error of the last attempt; and whenever the fetch phase
of `getTasksBatch` fails, the returned cache is exactly the cache from before
the call — entries are cached only after a successful fetch. -/
theorem C8_retry_exhaustion_cache_untouched :
    (∀ (α : Type) (outcome : Nat → Except String α) (f : Nat → String),
        (∀ n, n ≤ MAX_RETRIES → outcome n = Except.error (f n)) →
        fetchWithRetry outcome MAX_RETRIES =
          (Except.error (f MAX_RETRIES), [1000, 2000, 4000]))
  ∧ (∀ (τ : Type) (idOf : τ → String) (cache : List (String × τ))
        (taskIds : List String) (fetchChunk : List String → Except String (List τ))
        (e : String),
        (getTasksBatchM idOf cache taskIds fetchChunk).1 = Except.error e →
        (getTasksBatchM idOf cache taskIds fetchChunk).2 = cache) := by
  constructor
  · intro α outcome f hfail
    unfold fetchWithRetry
    rw [fetchWithRetryGo_all_fail outcome f MAX_RETRIES hfail MAX_RETRIES 0 rfl
      (Nat.zero_le _)]
    have hdelays : (List.range MAX_RETRIES).map (fun i => RETRY_DELAY_MS * 2 ^ (0 + i)) =
        [1000, 2000, 4000] := by decide
    rw [hdelays]
  · intro τ idOf cache taskIds fetchChunk e
    unfold getTasksBatchM
    by_cases h0 : taskIds.length = 0
    · rw [if_pos h0]
      intro h
      exact absurd h (by simp)
    · rw [if_neg h0]
      simp only
      by_cases h1 : (taskIds.filter (fun i => (recordGet cache i).isNone)).length = 0
      · rw [if_pos h1]
        intro h
        exact absurd h (by simp)
      · rw [if_neg h1]
        cases hres : fetchAllChunks fetchChunk
            (chunksOf BATCH_SIZE (taskIds.filter (fun i => (recordGet cache i).isNone))) with
        | error e2 => intro _; rfl
        | ok fetched => intro h; exact absurd h (by simp)

/-- C8 (witness): a gateway call whose every attempt rejects, evaluated at
`MAX_RETRIES = 3`, and a one-entry cache surviving a failed batch fetch. -/
theorem C8_retry_witness :
    fetchWithRetry (fun _ => (Except.error "boom" : Except String Nat)) MAX_RETRIES =
      (Except.error "boom", [1000, 2000, 4000])
  ∧ (getTasksBatchM (fun t => t) [("a", "a")] ["a", "b"]
      (fun _ => Except.error "down")).2 = [("a", "a")] :=
  ⟨C8_retry_exhaustion_cache_untouched.1 Nat (fun _ => Except.error "boom")
      (fun _ => "boom") (fun _ _ => rfl),
   C8_retry_exhaustion_cache_untouched.2 String (fun t => t) [("a", "a")] ["a", "b"]
      (fun _ => Except.error "down") "down" rfl⟩

-- ===========================================================================
-- C9 — depth bounds of the recursive loaders
-- ===========================================================================

theorem loadTaskTreeOps_mem_depth :
    ∀ (n : Nat) (tasks : List (String × LTask)) (taskId : String) (depth : Int),
      depth.toNat ≤ n → ∀ op ∈ loadTaskTreeOps tasks taskId depth,
        1 ≤ op.depth ∧ op.depth ≤ depth := by
  intro n
  induction n with
  | zero =>
    intro tasks taskId depth hn op hop
    rw [loadTaskTreeOps, if_pos (by omega : depth ≤ 0)] at hop
    cases hop
  | succ n ih =>
    intro tasks taskId depth hn op hop
    by_cases hd : depth ≤ 0
    · rw [loadTaskTreeOps, if_pos hd] at hop
      cases hop
    · rw [loadTaskTreeOps, if_neg hd] at hop
      split at hop
      · rcases List.mem_singleton.mp hop with rfl
        exact ⟨by change (1 : Int) ≤ depth; omega, le_rfl⟩
      · split at hop
        · rcases List.mem_cons.mp hop with rfl | hop2
          · exact ⟨by change (1 : Int) ≤ depth; omega, le_rfl⟩
          rcases List.mem_cons.mp hop2 with rfl | hop3
          · exact ⟨by change (1 : Int) ≤ depth; omega, le_rfl⟩
          split at hop3
          · rename_i hrec
            rcases List.mem_flatMap.mp hop3 with ⟨sid, _, hmem⟩
            have hb := ih tasks sid (depth - 1) (by omega) op hmem
            refine ⟨hb.1, ?_⟩
            have := hb.2
            omega
          · cases hop3
        · rcases List.mem_singleton.mp hop with rfl
          exact ⟨by change (1 : Int) ≤ depth; omega, le_rfl⟩

theorem autoLoadOps_mem_depth :
    ∀ (n : Nat) (tasks : List (String × AutoTask))
      (childrenOf callbacksOf : String → List String) (taskId : String) (d : Nat),
      MAX_DEPTH - d ≤ n → ∀ op ∈ autoLoadOps tasks childrenOf callbacksOf taskId d,
        d ≤ op.depth ∧ op.depth < MAX_DEPTH := by
  intro n
  induction n with
  | zero =>
    intro tasks childrenOf callbacksOf taskId d hn op hop
    rw [autoLoadOps, if_pos (by omega : MAX_DEPTH ≤ d)] at hop
    cases hop
  | succ n ih =>
    intro tasks childrenOf callbacksOf taskId d hn op hop
    by_cases hd : MAX_DEPTH ≤ d
    · rw [autoLoadOps, if_pos hd] at hop
      cases hop
    · rw [autoLoadOps, if_neg hd] at hop
      split at hop
      · cases hop
      · rcases List.mem_append.mp hop with hop1 | hoprec
        · rcases List.mem_append.mp hop1 with hopc | hopcb
          · split at hopc
            · rcases List.mem_singleton.mp hopc with rfl
              exact ⟨le_rfl, by change d < MAX_DEPTH; omega⟩
            · cases hopc
          · split at hopcb
            · rcases List.mem_singleton.mp hopcb with rfl
              exact ⟨le_rfl, by change d < MAX_DEPTH; omega⟩
            · cases hopcb
        · rcases List.mem_flatMap.mp hoprec with ⟨cid, _, hmem⟩
          have hb := ih tasks childrenOf callbacksOf cid (d + 1) (by omega) op hmem
          refine ⟨?_, hb.2⟩
          have := hb.1
          omega

/-- C9: `loadTaskTree(id, depth)` performs no load operation and does not
recurse when `depth <= 0`; every operation it does perform was issued at a
depth between 1 and the initial `depth` (each recursive call passes
`depth - 1`, so recursion never proceeds past depth 0 and the bound holds
for every task snapshot, i.e. regardless of graph size); and the automatic
depth-based load `autoLoadToDepth` returns immediately once
`currentDepth >= MAX_DEPTH = 10`, every operation it performs being issued
at a depth below 10. -/
theorem C9_depth_bounds :
    (∀ (tasks : List (String × LTask)) (taskId : String) (depth : Int),
        depth ≤ 0 → loadTaskTreeOps tasks taskId depth = [])
  ∧ (∀ (tasks : List (String × LTask)) (taskId : String) (depth : Int)
        (op : TreeLoadOp), op ∈ loadTaskTreeOps tasks taskId depth →
        1 ≤ op.depth ∧ op.depth ≤ depth)
  ∧ (∀ (tasks : List (String × AutoTask))
        (childrenOf callbacksOf : String → List String) (taskId : String) (d : Nat),
        MAX_DEPTH ≤ d → autoLoadOps tasks childrenOf callbacksOf taskId d = [])
  ∧ (∀ (tasks : List (String × AutoTask))
        (childrenOf callbacksOf : String → List String) (taskId : String) (d : Nat)
        (op : AutoLoadOp), op ∈ autoLoadOps tasks childrenOf callbacksOf taskId d →
        d ≤ op.depth ∧ op.depth < MAX_DEPTH) := by
  refine ⟨?_, ?_, ?_, ?_⟩
  · intro tasks taskId depth h
    rw [loadTaskTreeOps, if_pos h]
  · intro tasks taskId depth op hop
    exact loadTaskTreeOps_mem_depth depth.toNat tasks taskId depth le_rfl op hop
  · intro tasks childrenOf callbacksOf taskId d h
    rw [autoLoadOps, if_pos h]
  · intro tasks childrenOf callbacksOf taskId d op hop
    exact autoLoadOps_mem_depth (MAX_DEPTH - d) tasks childrenOf callbacksOf taskId d
      le_rfl op hop

/-- C9 (witness): the bounds applied at depth 0 (no op), at depth 1 (the
single callbacks op), at `currentDepth = 10` (no op) and at
`currentDepth = 9` (a fetch op below the ceiling). -/
theorem C9_depth_bounds_witness :
    loadTaskTreeOps [] "x" 0 = []
  ∧ (1 ≤ (TreeLoadOp.mk false "x" 1).depth ∧ (TreeLoadOp.mk false "x" 1).depth ≤ 1)
  ∧ autoLoadOps [] (fun _ => []) (fun _ => []) "x" 10 = []
  ∧ (9 ≤ (AutoLoadOp.mk false "x" 9).depth ∧
      (AutoLoadOp.mk false "x" 9).depth < MAX_DEPTH) :=
  ⟨C9_depth_bounds.1 [] "x" 0 (by decide),
   C9_depth_bounds.2.1 [] "x" 1 (TreeLoadOp.mk false "x" 1) (by
     rw [loadTaskTreeOps, if_neg (by decide : ¬ (1 : Int) ≤ 0)]
     exact List.mem_singleton.mpr rfl),
   C9_depth_bounds.2.2.1 [] (fun _ => []) (fun _ => []) "x" 10 (by decide),
   C9_depth_bounds.2.2.2 [("x", AutoTask.mk 1 false true)] (fun _ => []) (fun _ => [])
     "x" 9 (AutoLoadOp.mk false "x" 9) (by
       rw [autoLoadOps, if_neg (by decide : ¬ MAX_DEPTH ≤ 9)]
       decide)⟩

-- ===========================================================================
-- C6 — chain sequence edges stay inside one page
-- ===========================================================================

theorem chainSeqGo_eq_zip_filter (all : TaskMap) :
    ∀ l : List String,
      chainSeqGo all l =
        (l.zip l.tail).filter (fun p => (lookupTask all p.1).isSome)
  | [] => rfl
  | [c] => by simp [chainSeqGo]
  | c :: next :: rest => by
    rw [chainSeqGo]
    have ih := chainSeqGo_eq_zip_filter all (next :: rest)
    by_cases hc : (lookupTask all c).isSome
    · rw [if_pos hc]
      simp only [List.zip_cons_cons, List.tail_cons, List.filter_cons]
      rw [if_pos (by simpa using hc)]
      rw [ih]
      simp
    · rw [if_neg hc]
      simp only [List.zip_cons_cons, List.tail_cons, List.filter_cons]
      rw [if_neg (by simpa using hc)]
      rw [ih]
      simp

/-- C6: sequence edges emitted by `ChainTask.layoutChildren` connect exactly
the consecutive pairs of the requested page (filtered on the source being
present in the task map), never reaching outside the page; and in the
15-children/page-size-4 scenario the pages have sizes 4, 4, 4, 3, page 1 is
exactly `sequential5..sequential8`, the layout edges of page 1 are exactly
the three consecutive pairs inside it, the loader's sequence edges for the
fetched page 1 (with page 0 already in the store) are those same three
pairs with no bridging edge, and no edge of that page touches `sequential4`
or `sequential9`. -/
theorem C6_sequence_edges_within_page :
    (∀ (t : ATask) (all : TaskMap) (page : Nat),
        chainLayoutSequenceEdges t all page =
          if t.tasks.length = 0 then []
          else ((getTasksForPage t page).zip (getTasksForPage t page).tail).filter
            (fun p => (lookupTask all p.1).isSome))
  ∧ ((getTasksForPage chain15 0).length = 4 ∧ (getTasksForPage chain15 1).length = 4
      ∧ (getTasksForPage chain15 2).length = 4 ∧ (getTasksForPage chain15 3).length = 3)
  ∧ getTasksForPage chain15 1 = ["sequential5", "sequential6", "sequential7", "sequential8"]
  ∧ chainLayoutSequenceEdges chain15 all15 1 =
      [("sequential5", "sequential6"), ("sequential6", "sequential7"),
        ("sequential7", "sequential8")]
  ∧ loadSubtasksSequenceEdges ["sequential5", "sequential6", "sequential7", "sequential8"]
      ["sequential1", "sequential2", "sequential3", "sequential4"] 1 4 =
      [createSequenceEdge "sequential5" "sequential6",
        createSequenceEdge "sequential6" "sequential7",
        createSequenceEdge "sequential7" "sequential8"]
  ∧ ((chainLayoutSequenceEdges chain15 all15 1).all (fun e =>
        e.1 ≠ "sequential4" ∧ e.2 ≠ "sequential4" ∧
        e.1 ≠ "sequential9" ∧ e.2 ≠ "sequential9")) = true
  ∧ ((loadSubtasksSequenceEdges ["sequential5", "sequential6", "sequential7", "sequential8"]
        ["sequential1", "sequential2", "sequential3", "sequential4"] 1 4).all (fun e =>
        e.source ≠ "sequential4" ∧ e.target ≠ "sequential4" ∧
        e.source ≠ "sequential9" ∧ e.target ≠ "sequential9")) = true := by
  refine ⟨?_, by decide, by decide, by decide, by decide, by decide, by decide⟩
  intro t all page
  unfold chainLayoutSequenceEdges
  by_cases h : t.tasks.length = 0
  · rw [if_pos h, if_pos h]
  · rw [if_neg h, if_neg h, chainSeqGo_eq_zip_filter]

-- ===========================================================================
-- C1 — container dimensions and the display page
-- ===========================================================================

/-- C1 (counterexample): the frontend `calculateTaskDimensions` slices the
children by the `currentPage` argument before measuring, so its result is
*not* independent of the display page: a chain of 6 leaf children
(`TASKS_PER_PAGE = 5`) measures 996 × 184 at page 1 but 228 × 184 at
page 2. -/
theorem C1_counterexample :
    calculateTaskDimensionsF 2 fChain6 fMap6 1 = some ⟨996, 184⟩
  ∧ calculateTaskDimensionsF 2 fChain6 fMap6 2 = some ⟨228, 184⟩
  ∧ calculateTaskDimensionsF 2 fChain6 fMap6 1 ≠ calculateTaskDimensionsF 2 fChain6 fMap6 2 := by
  decide

/-- C1 (amended): the app-side `ChainTask.calculateDimensions` and
`SwarmTask.calculateDimensions` measure the page-0 children only: two
containers of the same variant and page size that agree on having children
at all, on needing pagination, and on their page-0 child slice receive
identical dimensions, whatever their remaining pages contain — the display
page is not even an input.  (The frontend `calculateTaskDimensionsF`, by
contrast, depends on its page argument, per the counterexample.) -/
theorem C1_appside_dimensions_page0_only :
    (∀ (fuel : Nat) (all : TaskMap) (i n i2 n2 : String)
        (w h w2 h2 : Option Nat) (ts ts2 : List String) (ps : Nat),
        (ts.length = 0 ↔ ts2.length = 0) →
        needsPagination ⟨i, n, ATaskType.chain, w, h, ts, ps⟩ =
          needsPagination ⟨i2, n2, ATaskType.chain, w2, h2, ts2, ps⟩ →
        getTasksForPage ⟨i, n, ATaskType.chain, w, h, ts, ps⟩ 0 =
          getTasksForPage ⟨i2, n2, ATaskType.chain, w2, h2, ts2, ps⟩ 0 →
        calculateDimensionsA fuel ⟨i, n, ATaskType.chain, w, h, ts, ps⟩ all =
          calculateDimensionsA fuel ⟨i2, n2, ATaskType.chain, w2, h2, ts2, ps⟩ all)
  ∧ (∀ (fuel : Nat) (all : TaskMap) (i n i2 n2 : String)
        (w h w2 h2 : Option Nat) (ts ts2 : List String) (ps : Nat),
        (ts.length = 0 ↔ ts2.length = 0) →
        needsPagination ⟨i, n, ATaskType.swarm, w, h, ts, ps⟩ =
          needsPagination ⟨i2, n2, ATaskType.swarm, w2, h2, ts2, ps⟩ →
        getTasksForPage ⟨i, n, ATaskType.swarm, w, h, ts, ps⟩ 0 =
          getTasksForPage ⟨i2, n2, ATaskType.swarm, w2, h2, ts2, ps⟩ 0 →
        calculateDimensionsA fuel ⟨i, n, ATaskType.swarm, w, h, ts, ps⟩ all =
          calculateDimensionsA fuel ⟨i2, n2, ATaskType.swarm, w2, h2, ts2, ps⟩ all) := by
  constructor
  · intro fuel all i n i2 n2 w h w2 h2 ts ts2 ps hempty hpag hslice
    cases fuel with
    | zero => rfl
    | succ fuel =>
      simp only [calculateDimensionsA]
      rw [hslice, hpag]
      by_cases h0 : ts.length = 0
      · rw [if_pos h0, if_pos (hempty.mp h0)]
      · rw [if_neg h0, if_neg (fun hh => h0 (hempty.mpr hh))]
  · intro fuel all i n i2 n2 w h w2 h2 ts ts2 ps hempty hpag hslice
    cases fuel with
    | zero => rfl
    | succ fuel =>
      simp only [calculateDimensionsA]
      rw [hslice, hpag]
      by_cases h0 : ts.length = 0
      · rw [if_pos h0, if_pos (hempty.mp h0)]
      · rw [if_neg h0, if_neg (fun hh => h0 (hempty.mpr hh))]

/-- C1 (witness): two chains and two swarms with page size 2 agreeing on
their page-0 slice `[a, b]` but differing on page 1 receive identical
dimensions. -/
theorem C1_appside_dimensions_page0_only_witness :
    calculateDimensionsA 1 ⟨"c1", "c1", ATaskType.chain, none, none, ["a", "b", "c"], 2⟩ [] =
      calculateDimensionsA 1 ⟨"c2", "c2", ATaskType.chain, none, none, ["a", "b", "d"], 2⟩ []
  ∧ calculateDimensionsA 1 ⟨"s1", "s1", ATaskType.swarm, none, none, ["a", "b", "c"], 2⟩ [] =
      calculateDimensionsA 1 ⟨"s2", "s2", ATaskType.swarm, none, none, ["a", "b", "d"], 2⟩ [] :=
  ⟨C1_appside_dimensions_page0_only.1 1 [] "c1" "c1" "c2" "c2" none none none none
      ["a", "b", "c"] ["a", "b", "d"] 2 (by decide) (by decide) (by decide),
   C1_appside_dimensions_page0_only.2 1 [] "s1" "s1" "s2" "s2" none none none none
      ["a", "b", "c"] ["a", "b", "d"] 2 (by decide) (by decide) (by decide)⟩

-- ===========================================================================
-- C10 — batch response missing an id
-- ===========================================================================

/-- C10: when the batch fetch succeeds but the response has no task for a
requested id, `executeBatch` rejects exactly that id's callers with
`Task {id} not found` while every id that does have a task in the response
resolves with it; and `getTask` for an id whose batch outcome is a rejection
propagates the rejection and leaves the cache unchanged, so a missing id is
never written into the cache. -/
theorem C10_batch_missing_id :
    (∀ (τ : Type) (idOf : τ → String) (batch : List String) (tasks : List τ)
        (i : String), i ∈ batch →
        (tasks.reverse.find? (fun t => idOf t = i) = none →
          (i, (Except.error s!"Task {i} not found" : Except String τ)) ∈
            executeBatchM idOf batch (Except.ok tasks))
        ∧ (∀ t : τ, tasks.reverse.find? (fun t2 => idOf t2 = i) = some t →
            (i, Except.ok t) ∈ executeBatchM idOf batch (Except.ok tasks)))
  ∧ (∀ (τ : Type) (cache : List (String × τ)) (taskId e : String),
        recordGet cache taskId = none →
        getTaskM cache taskId (Except.error e) = (Except.error e, cache)) := by
  constructor
  · intro τ idOf batch tasks i hi
    constructor
    · intro hnone
      unfold executeBatchM
      refine List.mem_map.mpr ⟨i, hi, ?_⟩
      rw [hnone]
    · intro t ht
      unfold executeBatchM
      refine List.mem_map.mpr ⟨i, hi, ?_⟩
      rw [ht]
  · intro τ cache taskId e h
    unfold getTaskM
    rw [h]

/-- C10 (witness): requesting `[a, b]` when the server returns only task `a`
rejects `b` with `Task b not found`, resolves `a`, and a missing-id rejection
leaves the cache unchanged. -/
theorem C10_batch_missing_id_witness :
    ("b", (Except.error "Task b not found" : Except String String)) ∈
      executeBatchM (fun t => t) ["a", "b"] (Except.ok ["a"])
  ∧ ("a", (Except.ok "a" : Except String String)) ∈
      executeBatchM (fun t => t) ["a", "b"] (Except.ok ["a"])
  ∧ getTaskM ([] : List (String × String)) "b" (Except.error "Task b not found") =
      (Except.error "Task b not found", []) :=
  ⟨(C10_batch_missing_id.1 String (fun t => t) ["a", "b"] ["a"] "b" (by decide)).1 rfl,
   (C10_batch_missing_id.1 String (fun t => t) ["a", "b"] ["a"] "a" (by decide)).2 "a" rfl,
   C10_batch_missing_id.2 String [] "b" "Task b not found" rfl⟩
